import Mathlib

/-!
Verification of the ray-tracing scaffold: a Ray primitive (`src/ray.rs`)
and a PPM gradient driver (`src/main.rs`).

Modelling conventions:
* `f64`/`f32` components are modelled as `ℚ`.  Every arithmetic operation the
  claims touch (addition, scalar multiplication, the quantisation
  `255.99 * c` for `c ∈ {i/255, j/255, 0.25}` with `0 ≤ i, j ≤ 255`) is exact
  in the floating formats at the precision where it decides a claim's integer
  output, so the rational model is observationally faithful for those claims.
* Rust's `expr as i32` on a non-negative in-range float truncates toward zero.
* The process's standard output and standard error are modelled as the lists
  of chunks printed by the driver (`println!` / `eprint!` calls, in order);
  the byte stream is the flattening of those chunks.  Decimal formatting of
  integers is modelled explicitly (`natChars` / `intChars`).
-/

namespace RayTracing

/-- `nalgebra::Vector3<f64>` (and, for colors, `Vector3<f32>`): three
numeric components. -/
structure Vector3 where
  x : ℚ
  y : ℚ
  z : ℚ
deriving DecidableEq

/-- `nalgebra::Point3<f64>`: a position with three numeric components. -/
structure Point3 where
  x : ℚ
  y : ℚ
  z : ℚ
deriving DecidableEq

/-- Scalar multiplication `t * direction` on `Vector3` (component-wise, as in
nalgebra). -/
def smulVec (t : ℚ) (v : Vector3) : Vector3 :=
  ⟨t * v.x, t * v.y, t * v.z⟩

/-- `Point3 + Vector3 -> Point3` (component-wise, as in nalgebra). -/
def pointAddVec (p : Point3) (v : Vector3) : Point3 :=
  ⟨p.x + v.x, p.y + v.y, p.z + v.z⟩

/-- `src/ray.rs`: `struct Ray` holding an origin and a direction.  The source
holds them behind references with a lifetime bound; a value-level embedding
observes only the pointee values. -/
structure Ray where
  origin : Point3
  direction : Vector3
deriving DecidableEq

/-- `Ray::new(origin, direction)`: `Self { origin, direction }`. -/
def Ray.new (origin : Point3) (direction : Vector3) : Ray :=
  ⟨origin, direction⟩

/-- `Ray::at(&self, t)`: `self.origin + t * self.direction`. -/
def Ray.evalAt (r : Ray) (t : ℚ) : Point3 :=
  pointAddVec r.origin (smulVec t r.direction)

/-- `Ray::at(&self, t)` with the `&self` borrow made explicit: the call
returns the computed point together with the (unchanged) ray the borrow
refers to after the call. -/
def Ray.evalAtBorrow (r : Ray) (t : ℚ) : Point3 × Ray :=
  (r.evalAt t, r)

/-! ### The driver, `src/main.rs` -/

/-- `type Color = Vector3<f32>;` -/
abbrev Color := Vector3

/-- `let img_width = 256;` -/
def img_width : Nat := 256

/-- `let img_height = 256;` -/
def img_height : Nat := 256

/-- Rust `q as i32` for an in-range float `q`: truncation toward zero. -/
def asI32 (q : ℚ) : ℤ :=
  if 0 ≤ q then ⌊q⌋ else ⌈q⌉

/-- `write_color`: quantise each channel by `(255.99 * channel) as i32`.
The formatted `"{} {} {}\n"` line is produced by `lineChars` below. -/
def write_color (color : Color) : ℤ × ℤ × ℤ :=
  (asI32 ((255.99 : ℚ) * color.x),
   asI32 ((255.99 : ℚ) * color.y),
   asI32 ((255.99 : ℚ) * color.z))

/-- The color the driver builds for column `i`, row `j` (row counted from the
bottom): `r = i / (img_width - 1)`, `g = j / (img_height - 1)`, `b = 0.25`. -/
def pixelColor (i j : Nat) : Color :=
  ⟨(i : ℚ) / ((img_width : ℚ) - 1), (j : ℚ) / ((img_height : ℚ) - 1), (0.25 : ℚ)⟩

/-- The integer triple the driver emits for pixel `(i, j)`. -/
def pixelTriple (i j : Nat) : ℤ × ℤ × ℤ :=
  write_color (pixelColor i j)

/-- The character for a decimal digit `d ≤ 9`. -/
def decimalDigit (d : Nat) : Char :=
  match d with
  | 0 => '0' | 1 => '1' | 2 => '2' | 3 => '3' | 4 => '4'
  | 5 => '5' | 6 => '6' | 7 => '7' | 8 => '8' | _ => '9'

/-- Decimal digits, most significant first, by structural recursion on a fuel
bound (any `fuel > n` yields the digits of `n`). -/
def natCharsAux : Nat → Nat → List Char
  | 0, _ => []
  | fuel + 1, n =>
    if n < 10 then [decimalDigit n]
    else natCharsAux fuel (n / 10) ++ [decimalDigit (n % 10)]

/-- Decimal digits of a natural number, most significant first (Rust's
`Display` formatting for non-negative integers). -/
def natChars (n : Nat) : List Char :=
  natCharsAux (n + 1) n

/-- Rust's `Display` formatting of an `i32`: optional sign, then digits. -/
def intChars (n : ℤ) : List Char :=
  if n < 0 then '-' :: natChars n.natAbs else natChars n.toNat

/-- The bytes of one `println!("{} {} {}", ir, ig, ib)` call. -/
def lineChars (t : ℤ × ℤ × ℤ) : List Char :=
  intChars t.1 ++ [' '] ++ intChars t.2.1 ++ [' '] ++ intChars t.2.2 ++ ['\n']

/-- The bytes of `println!("P3\n{} {}\n255\n", img_width, img_height)`:
the formatted text (which already ends in a newline) plus the newline
`println!` itself appends. -/
def headerChars : List Char :=
  "P3\n".data ++ natChars img_width ++ [' '] ++ natChars img_height
    ++ "\n255\n".data ++ ['\n']

/-- The chunks of one scanline `j`: the `write_color` lines for
`i = 0, 1, ..., img_width - 1`. -/
def rowChunks (j : Nat) : List (List Char) :=
  (List.range img_width).map fun i => lineChars (pixelTriple i j)

/-- Everything `main` prints to standard output, as the ordered list of
`println!` chunks: the header, then the pixel lines for
`j = img_height - 1, ..., 1, 0` (outer loop `(0..img_height).rev()`),
each row scanning `i = 0, ..., img_width - 1`. -/
def stdoutChunks : List (List Char) :=
  headerChars :: ((List.range img_height).reverse.map rowChunks).flatten

/-- The standard-output byte stream: the chunks, flattened. -/
def stdoutBytes : List Char :=
  stdoutChunks.flatten

/-- The bytes of one `eprint!("\rScanlines remaining: {} ", j)` call. -/
def progressChars (j : Nat) : List Char :=
  '\r' :: ("Scanlines remaining: ".data ++ natChars j ++ [' '])

/-- Everything `main` prints to standard error, as the ordered list of
`eprint!` chunks: one progress message per scanline (`j` descending), then
the final `eprint!("\r")`. -/
def stderrChunks : List (List Char) :=
  (List.range img_height).reverse.map progressChars ++ [['\r']]

/-! ### Spec-side definitions (for refinement comparisons) -/

/-- The spec's color-channel quantisation: `floor (255.99 * c)`. -/
def specChannel (c : ℚ) : ℤ :=
  ⌊(255.99 : ℚ) * c⌋

/-- The spec's integer triple for pixel `(i, j)` of the gradient:
channels `i/255`, `j/255`, `0.25`, each quantised by `specChannel`. -/
def specTriple (i j : Nat) : ℤ × ℤ × ℤ :=
  (specChannel ((i : ℚ) / 255), specChannel ((j : ℚ) / 255), specChannel (0.25 : ℚ))

/-- The pixel-data bytes as the spec describes them: one `R G B` line per
pixel, rows top-to-bottom (row `j` is counted from the bottom, so `j`
descends from 255), pixels left-to-right within a row, channel values per
`specTriple`. -/
def specBodyBytes : List Char :=
  (((List.range 256).reverse.map fun j =>
      (((List.range 256).map fun i => lineChars (specTriple i j)).flatten)).flatten)

/-- The exact output stream claim C3 asserts: the header bytes
`"P3\n256 256\n255\n"` immediately followed by the pixel data. -/
def specClaimedStream : List Char :=
  "P3\n256 256\n255\n".data ++ specBodyBytes

/-- The output stream the driver actually produces: the claimed header, then
one extra `'\n'` (because `println!` appends a newline to a format string
that already ends in `"\n"`), then the pixel data. -/
def specAmendedStream : List Char :=
  "P3\n256 256\n255\n".data ++ '\n' :: specBodyBytes

/-! ### Vector algebra over the reals (for the spec-only `normalize`) -/

/-- A 3-vector with real components, for the spec's `length`/`normalize`
operations (which involve a square root, hence are stated over `ℝ`). -/
structure Vec3R where
  x : ℝ
  y : ℝ
  z : ℝ

/-- The spec's `length(v) = sqrt(dot(v, v))`. -/
noncomputable def Vec3R.length (v : Vec3R) : ℝ :=
  Real.sqrt (v.x * v.x + v.y * v.y + v.z * v.z)

/-- Modelled from the spec: `normalize` is not in the repository source (the
code borrows nalgebra's vector type and never calls it); per §4.1, the result
is `v / length(v)`, and a zero `length(v)` is a signalled defect — the caller
gets a failure (`none`), not a NaN-filled vector. -/
noncomputable def normalize (v : Vec3R) : Option Vec3R :=
  haveI : Decidable (Vec3R.length v = 0) := Classical.dec _
  if Vec3R.length v = 0 then none
  else some ⟨v.x / Vec3R.length v, v.y / Vec3R.length v, v.z / Vec3R.length v⟩

/-! ### Helper lemmas -/

lemma decimalDigit_ne_cr (m : Nat) : decimalDigit m ≠ '\r' := by
  rcases m with _ | _ | _ | _ | _ | _ | _ | _ | _ | m
  all_goals first
  | decide
  | exact (by decide : ('9' : Char) ≠ '\r')

lemma cr_not_mem_natCharsAux (fuel : Nat) : ∀ n, '\r' ∉ natCharsAux fuel n := by
  induction fuel with
  | zero => intro n h; exact absurd h (List.not_mem_nil _)
  | succ f ih =>
    intro n h
    unfold natCharsAux at h
    by_cases hn : n < 10
    · rw [if_pos hn] at h
      exact decimalDigit_ne_cr n (List.mem_singleton.1 h).symm
    · rw [if_neg hn] at h
      rcases List.mem_append.1 h with h | h
      · exact ih (n / 10) h
      · exact decimalDigit_ne_cr (n % 10) (List.mem_singleton.1 h).symm

lemma cr_not_mem_natChars (n : Nat) : '\r' ∉ natChars n :=
  cr_not_mem_natCharsAux (n + 1) n

lemma cr_not_mem_intChars (n : ℤ) : '\r' ∉ intChars n := by
  unfold intChars
  split
  · simp only [List.mem_cons]
    rintro (h | h)
    · exact absurd h (by decide)
    · exact cr_not_mem_natChars _ h
  · exact cr_not_mem_natChars _

lemma cr_not_mem_lineChars (t : ℤ × ℤ × ℤ) : '\r' ∉ lineChars t := by
  unfold lineChars
  simp only [List.append_assoc, List.mem_append, List.mem_singleton]
  rintro (h | h | h | h | h | h)
  · exact cr_not_mem_intChars _ h
  · exact absurd h (by decide)
  · exact cr_not_mem_intChars _ h
  · exact absurd h (by decide)
  · exact cr_not_mem_intChars _ h
  · exact absurd h (by decide)

lemma cr_not_mem_headerChars : '\r' ∉ headerChars := by decide

/-- Every chunk `main` prints to standard output is the header or a pixel
line. -/
lemma stdoutChunks_cases {l : List Char} (h : l ∈ stdoutChunks) :
    l = headerChars ∨ ∃ i j, l = lineChars (pixelTriple i j) := by
  unfold stdoutChunks at h
  rcases List.mem_cons.1 h with h | h
  · exact Or.inl h
  · right
    obtain ⟨row, hrow, hl⟩ := List.mem_flatten.1 h
    obtain ⟨j, _, rfl⟩ := List.mem_map.1 hrow
    obtain ⟨i, _, rfl⟩ := List.mem_map.1 hl
    exact ⟨i, j, rfl⟩

lemma cr_not_mem_stdoutBytes : '\r' ∉ stdoutBytes := by
  intro h
  obtain ⟨l, hl, hc⟩ := List.mem_flatten.1 h
  rcases stdoutChunks_cases hl with rfl | ⟨i, j, rfl⟩
  · exact cr_not_mem_headerChars hc
  · exact cr_not_mem_lineChars _ hc

lemma asI32_of_nonneg {q : ℚ} (h : 0 ≤ q) : asI32 q = ⌊q⌋ :=
  if_pos h

/-- The quantised triple the driver emits for pixel `(i, j)` agrees with the
spec's `floor (255.99 * c)` formula on channels `i/255`, `j/255`, `0.25`. -/
lemma pixelTriple_eq_specTriple (i j : Nat) : pixelTriple i j = specTriple i j := by
  unfold pixelTriple write_color pixelColor specTriple specChannel img_width img_height
  rw [asI32_of_nonneg (by positivity), asI32_of_nonneg (by positivity),
    asI32_of_nonneg (by norm_num)]
  norm_num

lemma flatten_flatten_map {α β : Type} (f : β → List (List α)) (g : β → List α)
    (h : ∀ j, (f j).flatten = g j) :
    ∀ l : List β, ((l.map f).flatten).flatten = (l.map g).flatten := by
  intro l
  induction l with
  | nil => rfl
  | cons a l ih =>
    simp only [List.map_cons, List.flatten_cons, List.flatten_append, ih, h]

/-- The pixel lines of scanline `j`, flattened, coincide with the
spec-valued lines for that row. -/
lemma rowChunks_flatten (j : Nat) :
    List.flatten (rowChunks j)
      = (((List.range 256).map fun i => lineChars (specTriple i j)).flatten) := by
  unfold rowChunks img_width
  exact congrArg List.flatten
    (List.map_congr_left fun i _ => congrArg lineChars (pixelTriple_eq_specTriple i j))

/-- The standard-output byte stream is the claimed header, an extra newline,
then the spec-valued pixel data. -/
lemma stdoutBytes_eq :
    stdoutBytes = "P3\n256 256\n255\n".data ++ '\n' :: specBodyBytes := by
  unfold stdoutBytes stdoutChunks
  rw [List.flatten_cons]
  rw [flatten_flatten_map rowChunks
    (fun j => (((List.range 256).map fun i => lineChars (specTriple i j)).flatten))
    rowChunks_flatten ((List.range img_height).reverse)]
  have hh : headerChars = "P3\n256 256\n255\n".data ++ ['\n'] := by decide
  rw [hh, List.append_assoc, List.singleton_append]
  rfl

/-! ### Claim theorems -/

/-- C1: for every ray and every rational `t` (negative values included),
`Ray::at` returns `origin + t * direction`, computed component-wise; the
operation is total and imposes no restriction on the sign of `t`. -/
theorem ray_at_formula (r : Ray) (t : ℚ) :
    r.evalAt t
      = ⟨r.origin.x + t * r.direction.x,
         r.origin.y + t * r.direction.y,
         r.origin.z + t * r.direction.z⟩ :=
  rfl

/-- C2: in the 256×256 gradient, pixel `(i, j)` carries channels `i/255`,
`j/255`, `0.25`, each quantised by `floor (255.99 * c)`; in particular
`(0, 255) ↦ (0, 255, 63)` and `(255, 0) ↦ (255, 0, 63)`. -/
theorem gradient_pixel_quantisation :
    (∀ i j : Nat, i ≤ 255 → j ≤ 255 →
      pixelTriple i j
        = (specChannel ((i : ℚ) / 255), specChannel ((j : ℚ) / 255),
           specChannel (0.25 : ℚ)))
    ∧ pixelTriple 0 255 = (0, 255, 63) ∧ pixelTriple 255 0 = (255, 0, 63) := by
  refine ⟨fun i j _ _ => pixelTriple_eq_specTriple i j, ?_, ?_⟩
  · norm_num [pixelTriple, write_color, pixelColor, asI32, img_width, img_height]
  · norm_num [pixelTriple, write_color, pixelColor, asI32, img_width, img_height]

/-- Witness for C2 at the concrete pixel `(7, 11)`. -/
theorem gradient_pixel_quantisation_witness :
    pixelTriple 7 11
      = (specChannel ((7 : ℚ) / 255), specChannel ((11 : ℚ) / 255),
         specChannel (0.25 : ℚ)) :=
  gradient_pixel_quantisation.1 7 11 (by norm_num) (by norm_num)

/-- C3 counterexample: the driver's output stream is NOT byte-for-byte the
claimed `"P3\n<w> <h>\n255\n"` header immediately followed by the pixel
triples — `println!` emits one extra `'\n'` after the header. -/
theorem ppm_stream_not_byte_exact : stdoutBytes ≠ specClaimedStream := by
  rw [stdoutBytes_eq]
  unfold specClaimedStream
  intro h
  have h2 := List.append_cancel_left h
  exact List.cons_ne_self _ _ h2

/-- C3 amended: the output stream is the header bytes `"P3\n256 256\n255\n"`,
then one extra blank line (a single `'\n'`, an artifact of `println!` on a
format string already ending in a newline), then one `R G B` triple per
pixel, rows top-to-bottom and pixels left-to-right. -/
theorem ppm_stream_with_blank_line : stdoutBytes = specAmendedStream :=
  stdoutBytes_eq

/-- C4: concrete `Ray::at` evaluations: origin `(0,0,0)`, direction
`(1,0,0)` at `t = 0, 2, -1`, and origin `(1,2,3)`, direction `(0,0,1)` at
`t = 5`. -/
theorem ray_at_examples :
    (Ray.new ⟨0, 0, 0⟩ ⟨1, 0, 0⟩).evalAt 0 = ⟨0, 0, 0⟩
    ∧ (Ray.new ⟨0, 0, 0⟩ ⟨1, 0, 0⟩).evalAt 2 = ⟨2, 0, 0⟩
    ∧ (Ray.new ⟨0, 0, 0⟩ ⟨1, 0, 0⟩).evalAt (-1) = ⟨-1, 0, 0⟩
    ∧ (Ray.new ⟨1, 2, 3⟩ ⟨0, 0, 1⟩).evalAt 5 = ⟨1, 2, 8⟩ := by
  refine ⟨?_, ?_, ?_, ?_⟩ <;> norm_num [Ray.new, Ray.evalAt, pointAddVec, smulVec]

/-- C5: `Ray::new` is a total constructor: for every origin and direction
(the zero direction included) it succeeds without validation, and the
constructed ray's origin and direction — as observed directly and through
`at` — are exactly the arguments passed. -/
theorem ray_new_total_stores_args (origin : Point3) (direction : Vector3) :
    (Ray.new origin direction).origin = origin
    ∧ (Ray.new origin direction).direction = direction
    ∧ ∀ t : ℚ, (Ray.new origin direction).evalAt t
        = pointAddVec origin (smulVec t direction) :=
  ⟨rfl, rfl, fun _ => rfl⟩

/-- C6: `Ray::at` is a pure, deterministic function of the ray's fields and
`t` — equal inputs give equal outputs — and evaluating it leaves the
borrowed ray unchanged. -/
theorem ray_at_pure_deterministic :
    (∀ (r₁ r₂ : Ray) (t₁ t₂ : ℚ), r₁.origin = r₂.origin →
      r₁.direction = r₂.direction → t₁ = t₂ → r₁.evalAt t₁ = r₂.evalAt t₂)
    ∧ ∀ (r : Ray) (t : ℚ),
        (r.evalAtBorrow t).2 = r ∧ (r.evalAtBorrow t).1 = r.evalAt t := by
  constructor
  · intro r₁ r₂ t₁ t₂ ho hd ht
    unfold Ray.evalAt
    rw [ho, hd, ht]
  · exact fun r t => ⟨rfl, rfl⟩

/-- Witness for C6: two syntactically different but equal-field rays give
the same point at `t = 2`. -/
theorem ray_at_pure_deterministic_witness :
    (Ray.new ⟨1, 2, 3⟩ ⟨4, 5, 6⟩).evalAt 2
      = Ray.evalAt ⟨⟨1, 2, 3⟩, ⟨4, 5, 6⟩⟩ 2 :=
  ray_at_pure_deterministic.1 _ _ 2 2 rfl rfl rfl

/-- C7: `normalize` applied to the zero vector signals a defect (returns no
value) rather than producing a NaN/Inf-filled vector. -/
theorem normalize_zero_signals_defect : normalize ⟨0, 0, 0⟩ = none := by
  have h : Vec3R.length ⟨0, 0, 0⟩ = 0 := by
    unfold Vec3R.length
    norm_num
  unfold normalize
  rw [if_pos h]

/-- C8: the driver's standard output holds only the PPM header and pixel
triples; every progress message (each `"\rScanlines remaining: j "` chunk
and the final `"\r"`) goes exclusively to standard error, and no carriage
return ever appears in the standard-output bytes. -/
theorem progress_only_stderr :
    (∀ j : Nat, j < img_height →
      progressChars j ∈ stderrChunks ∧ progressChars j ∉ stdoutChunks)
    ∧ ['\r'] ∈ stderrChunks ∧ ['\r'] ∉ stdoutChunks
    ∧ ∀ c ∈ stdoutBytes, c ≠ '\r' := by
  have hnocr : ∀ c ∈ stdoutBytes, c ≠ '\r' :=
    fun c hc heq => cr_not_mem_stdoutBytes (heq ▸ hc)
  have hchunk : ∀ l : List Char, '\r' ∈ l → l ∉ stdoutChunks := by
    intro l hcr hl
    exact cr_not_mem_stdoutBytes (List.mem_flatten.2 ⟨l, hl, hcr⟩)
  refine ⟨fun j hj => ⟨?_, ?_⟩, ?_, ?_, hnocr⟩
  · unfold stderrChunks
    exact List.mem_append_left _
      (List.mem_map_of_mem _ (List.mem_reverse.2 (List.mem_range.2 hj)))
  · exact hchunk _ (List.mem_cons_self _ _)
  · unfold stderrChunks
    exact List.mem_append_right _ (List.mem_singleton.2 rfl)
  · exact hchunk _ (List.mem_singleton.2 rfl)

/-- Witness for C8 at the concrete scanline `j = 0`. -/
theorem progress_only_stderr_witness :
    progressChars 0 ∈ stderrChunks ∧ progressChars 0 ∉ stdoutChunks :=
  progress_only_stderr.1 0 (by decide)

/-- C9: the blue channel is the constant `0.25` for every pixel, and the
third integer of every emitted triple is `floor (255.99 * 0.25) = 63`. -/
theorem blue_channel_always_63 :
    ∀ i j : Nat, (pixelColor i j).z = 0.25 ∧ (pixelTriple i j).2.2 = 63 := by
  intro i j
  refine ⟨rfl, ?_⟩
  show asI32 ((255.99 : ℚ) * (0.25 : ℚ)) = 63
  norm_num [asI32]

/-- C10: for every ray, `at (ray, 0)` is exactly the ray's origin and
`at (ray, 1)` is `origin + direction`. -/
theorem ray_at_zero_one_identity (r : Ray) :
    r.evalAt 0 = r.origin ∧ r.evalAt 1 = pointAddVec r.origin r.direction := by
  obtain ⟨⟨ox, oy, oz⟩, ⟨dx, dy, dz⟩⟩ := r
  constructor <;> simp [Ray.evalAt, pointAddVec, smulVec]

end RayTracing
